import Mathlib

/-!
Verification of the xerrors library: a generic error wrapper `ExtendedError[T]`
with `Extend` / `Extract` operations, plus the `errclass` severity classifier
and the `errcontext` structured-logging context attacher built on top of it.

The Go error chain is embedded as an inductive type `Err`: a chain is either a
base (leaf) error, an `ExtendedError[T]` link (constructor `ext`), or a foreign
single-cause wrapper honoring the standard `Unwrap` convention (constructor
`foreign`). Go generic instantiation at a payload type `T` is modelled by a
closed universe of nominal payload types `Ty`, with payload values `Val`:
each `Val` constructor is one nominal Go type (so two constructors carrying
the same representation model structurally identical but nominally distinct
types). A Go `error` value, which may be nil, is `Option Err`.
-/

namespace xerrors

/-- The severity classification of an error (`type Class int` in errclass). -/
abbrev Class := Int

/-- The contents of an `errcontext.Context` map (`map[string]slog.Value`),
modelled as an association list with unique keys; `slog.Value` is modelled
as `String`. -/
abbrev Ctx := List (String × String)

/-- Nominal payload types: the generic instantiations of `ExtendedError[T]`
appearing in the development. `tA` and `tB` are structurally identical
(both carry an `Int`) but nominally distinct. -/
inductive Ty where
  | tClass
  | tContext
  | tA
  | tB
  | tNat
  | tStr
deriving DecidableEq

/-- Payload values; the constructor is the value's nominal type. -/
inductive Val where
  | vClass (c : Class)
  | vContext (m : Ctx)
  | vA (n : Int)
  | vB (n : Int)
  | vNat (n : Nat)
  | vStr (s : String)
deriving DecidableEq

/-- The nominal type of a payload value. -/
def Val.ty : Val → Ty
  | .vClass _ => .tClass
  | .vContext _ => .tContext
  | .vA _ => .tA
  | .vB _ => .tB
  | .vNat _ => .tNat
  | .vStr _ => .tStr

/-- The Go zero value of each payload type. -/
def Ty.zero : Ty → Val
  | .tClass => .vClass 0
  | .tContext => .vContext []
  | .tA => .vA 0
  | .tB => .vB 0
  | .tNat => .vNat 0
  | .tStr => .vStr ""

/-- A non-nil Go error chain. `base` is a leaf error (the `id` models pointer
identity of distinct `errors.New` results); `ext` is an `ExtendedError[T]`
link holding its `Data` payload and its wrapped cause (`err` field); `foreign`
is any other single-cause wrapper (e.g. one made by wrapping with a message),
whose `Unwrap` returns its cause. -/
inductive Err where
  | base (id : Nat) (msg : String)
  | ext (data : Val) (cause : Err)
  | foreign (id : Nat) (pre : String) (cause : Err)
deriving DecidableEq

/-- `Error() string`: an `ExtendedError` reports exactly its cause's message;
a foreign wrapper prepends its own text. -/
def Err.error : Err → String
  | .base _ msg => msg
  | .ext _ c => c.error
  | .foreign _ pre c => pre ++ c.error

/-- `errors.Unwrap`: one step down the chain. A leaf has no `Unwrap` method,
so unwrapping it yields nil. -/
def Err.unwrap : Err → Option Err
  | .base _ _ => none
  | .ext _ c => some c
  | .foreign _ _ c => some c

/-- Chain length: the number of wrapper links above the leaf. -/
def Err.depth : Err → Nat
  | .base _ _ => 0
  | .ext _ c => c.depth + 1
  | .foreign _ _ c => c.depth + 1

/-- `Extend[T](data, err)`: wraps `err` with the payload `data`; if `err` is
nil it returns nil. -/
def Extend (data : Val) (err : Option Err) : Option Err :=
  match err with
  | none => none
  | some e => some (.ext data e)

/-- The chain walk of `errors.AsType[ExtendedError[T]]`: starting at the given
error (inclusive) and following unwrap links, return the payload of the first
`ExtendedError` link whose nominal type parameter is exactly `t`. -/
def extractAux (t : Ty) : Err → Option Val
  | .base _ _ => none
  | .ext d c => if d.ty = t then some d else extractAux t c
  | .foreign _ _ c => extractAux t c

/-- `Extract[T](err)`: returns the nearest payload of type `t` and `true`, or
the zero value of `t` and `false` when `err` is nil or has no match. -/
def Extract (t : Ty) (err : Option Err) : Val × Bool :=
  match err with
  | none => (t.zero, false)
  | some e =>
    match extractAux t e with
    | some d => (d, true)
    | none => (t.zero, false)

/-- Whether the chain contains an `ExtendedError` link of type `t`. -/
def hasTy (t : Ty) (e : Err) : Bool :=
  (extractAux t e).isSome

/-- The chain walk of `errors.Is` over a non-nil error: the target matches the
current link (comparable equality) or some link reached by unwrapping. -/
def errorsIsAux (e target : Err) : Bool :=
  if e = target then true
  else
    match e with
    | .base _ _ => false
    | .ext _ c => errorsIsAux c target
    | .foreign _ _ c => errorsIsAux c target

/-- `errors.Is(err, target)`: false on a nil error, else the chain walk. -/
def errorsIs (err : Option Err) (target : Err) : Bool :=
  match err with
  | none => false
  | some e => errorsIsAux e target

/-- Iterated extension: wrap `e` in one `ExtendedError` layer per payload in
`ds` (the head of `ds` ends up outermost). -/
def extendChain (ds : List Val) (e : Err) : Err :=
  ds.foldr (fun d acc => .ext d acc) e

end xerrors

namespace errclass

open xerrors

/-- `errclass.Nil`: the class of a nil error. -/
def Nil : xerrors.Class := -1

/-- `errclass.Unknown`: the zero value, for unclassified errors. -/
def Unknown : xerrors.Class := 0

/-- `errclass.Transient`: a temporary error that may succeed on retry. -/
def Transient : xerrors.Class := 1

/-- `errclass.Persistent`: a permanent error. -/
def Persistent : xerrors.Class := 2

/-- `errclass.Panic`: an error from a recovered panic. -/
def Panic : xerrors.Class := 3

/-- The internal wrapping restriction selected by `WrapOption`s. -/
inductive wrappingRestriction where
  | wrNone
  | wrOnlyUnknown
  | wrOnlyMoreSevere
deriving DecidableEq

/-- The options record configured by `WrapOption`s. -/
structure wrapOptions where
  restriction : wrappingRestriction

/-- A `WrapOption` mutates the options record. -/
abbrev WrapOption := wrapOptions → wrapOptions

/-- `WithUnrestricted`: wrap unconditionally (the default). -/
def WithUnrestricted : WrapOption := fun _ => ⟨.wrNone⟩

/-- `WithOnlyUnknown`: wrap only errors whose current class is `Unknown`. -/
def WithOnlyUnknown : WrapOption := fun _ => ⟨.wrOnlyUnknown⟩

/-- `WithOnlyMoreSevere`: wrap only when the new class is strictly more severe
than the current class. -/
def WithOnlyMoreSevere : WrapOption := fun _ => ⟨.wrOnlyMoreSevere⟩

/-- The typed read of a `Class` payload performed by
`xerrors.Extract[Class]`. -/
def classOf : Val → xerrors.Class
  | .vClass c => c
  | _ => 0

/-- `GetClass`: `Nil` for a nil error, the extracted class when one is
attached, `Unknown` otherwise. -/
def GetClass (err : Option Err) : xerrors.Class :=
  match err with
  | none => Nil
  | some e =>
    match Extract .tClass (some e) with
    | (v, true) => classOf v
    | (_, false) => Unknown

/-- `WrapAs(err, class, opts...)`: nil stays nil; otherwise apply the options
in order, then wrap with the class subject to the selected restriction. -/
def WrapAs (err : Option Err) (c : xerrors.Class) (opts : List WrapOption) : Option Err :=
  match err with
  | none => none
  | some e =>
    let options := opts.foldl (fun o f => f o) ⟨.wrNone⟩
    let currentClass := GetClass (some e)
    match options.restriction with
    | .wrOnlyUnknown =>
      if currentClass = Unknown then Extend (.vClass c) (some e) else some e
    | .wrOnlyMoreSevere =>
      if currentClass < c then Extend (.vClass c) (some e) else some e
    | .wrNone => Extend (.vClass c) (some e)

end errclass

namespace errcontext

open xerrors

/-- Go map assignment `m[k] = v`: overwrite the binding when the key is
present, otherwise add it. -/
def ctxInsert (m : Ctx) (k v : String) : Ctx :=
  if m.any (fun p => p.1 == k) then
    m.map (fun p => if p.1 == k then (k, v) else p)
  else m ++ [(k, v)]

/-- Assign each attribute into the map in order (last write wins). -/
def ctxInsertAll (m : Ctx) (attrs : List (String × String)) : Ctx :=
  attrs.foldl (fun acc p => ctxInsert acc p.1 p.2) m

/-- Lexicographic strict order on character lists, comparing code points:
the executable form of the string order Go key sorting uses. -/
def charListLtb : List Char → List Char → Bool
  | _, [] => false
  | [], _ :: _ => true
  | a :: as, b :: bs =>
    if a.toNat < b.toNat then true
    else if b.toNat < a.toNat then false
    else charListLtb as bs

/-- The strict order on strings used to sort context keys. -/
def strLtb (a b : String) : Bool := charListLtb a.data b.data

/-- Insert one attribute into a key-sorted list. -/
def insertByKey (p : String × String) : List (String × String) → List (String × String)
  | [] => [p]
  | q :: rest => if strLtb q.1 p.1 then q :: insertByKey p rest else p :: q :: rest

/-- `Context.Flatten`: the context as attributes sorted by key. -/
def Flatten (c : Ctx) : List (String × String) :=
  c.foldr insertByKey []

/-- The typed read of a `Context` payload performed by
`xerrors.Extract[Context]`. -/
def ctxOf : Val → Ctx
  | .vContext m => m
  | _ => []

/-- `Get`: the `Context` attached to the error, or nil (`none`) when the error
is nil or carries none. -/
def Get (err : Option Err) : Option Ctx :=
  match err with
  | none => none
  | some e =>
    match Extract .tContext (some e) with
    | (v, true) => some (ctxOf v)
    | (_, false) => none

/-- The in-place map mutation of `Add` on an error that already has context:
the nearest `Context` link (the one whose map `Get` returned) has the
attributes assigned into its map; every other link is untouched. -/
def mutateCtx (e : Err) (attrs : List (String × String)) : Err :=
  match e with
  | .base i msg => .base i msg
  | .ext d c =>
    match d with
    | .vContext m => .ext (.vContext (ctxInsertAll m attrs)) c
    | _ => .ext d (mutateCtx c attrs)
  | .foreign i pre c => .foreign i pre (mutateCtx c attrs)

/-- `Add(err, context...)`: nil stays nil, no attributes returns the error
unchanged; if a `Context` is already present its map is mutated in place,
otherwise a fresh map is built from the attributes and attached with
`Extend`. -/
def Add (err : Option Err) (context : List (String × String)) : Option Err :=
  match err with
  | none => none
  | some e =>
    if context.isEmpty then some e
    else
      match Get (some e) with
      | some _ => some (mutateCtx e context)
      | none => Extend (.vContext (ctxInsertAll [] context)) (some e)

end errcontext

/-- One layer of wrapping by some other single-cause wrapper: either a foreign
wrapper kind, or an `ExtendedError` at some payload type. -/
inductive xerrors.WrapStep where
  | wsForeign (id : Nat) (pre : String)
  | wsExt (d : xerrors.Val)

/-- Apply a single wrapping step around an error. -/
def xerrors.applyWrap (w : xerrors.WrapStep) (e : xerrors.Err) : xerrors.Err :=
  match w with
  | .wsForeign i pre => .foreign i pre e
  | .wsExt d => .ext d e

/-- Whether a wrapping step is itself an `ExtendedError` link of type `t`
(a foreign wrapper kind never is). -/
def xerrors.wrapMatches (t : xerrors.Ty) : xerrors.WrapStep → Bool
  | .wsForeign _ _ => false
  | .wsExt d => d.ty == t

/-- The base error `E` of the context-accumulation scenario. -/
def scenarioE : xerrors.Err := .base 0 "this is a test error"

/-- `E1`: `E` with context `(one, one)` attached. -/
def scenarioE1 : Option xerrors.Err := errcontext.Add (some scenarioE) [("one", "one")]

/-- `E2`: `E1` with context `(two, two)` attached. -/
def scenarioE2 : Option xerrors.Err := errcontext.Add scenarioE1 [("two", "two")]

/-- Duplicate-key scenario: attach `(two, two)` then `(two, three)` to the
same error. -/
def scenarioDup : Option xerrors.Err :=
  errcontext.Add (errcontext.Add (some (xerrors.Err.base 2 "dup")) [("two", "two")])
    [("two", "three")]

/-- An error that already carries a `Context` payload, used to instantiate the
general in-place part of the context claim. -/
def ctxWitErr : xerrors.Err := .ext (.vContext []) (.base 1 "x")

/-- The plain (unclassified) base error of the severity-escalation scenario. -/
def plainErr : xerrors.Err := .base 1 "plain"

/-- The plain error classified as `Transient` (unrestricted). -/
def classified1 : Option xerrors.Err :=
  errclass.WrapAs (some plainErr) errclass.Transient []

/-- Reclassified with `Persistent` under the only-if-more-severe policy. -/
def classified2 : Option xerrors.Err :=
  errclass.WrapAs classified1 errclass.Persistent [errclass.WithOnlyMoreSevere]

/-- Reclassified again with `Transient` under the same policy. -/
def classified3 : Option xerrors.Err :=
  errclass.WrapAs classified2 errclass.Transient [errclass.WithOnlyMoreSevere]

/-- C1: round-trip — for every error `e` and payload `d` of type `T`,
`Extract[T](Extend(d, e))` equals `(d, true)`: extracting immediately after
extending recovers exactly the stored payload with found = true. -/
theorem extract_extend_roundtrip (e : xerrors.Err) (d : xerrors.Val) :
    xerrors.Extract d.ty (xerrors.Extend d (some e)) = (d, true) := by
  simp [xerrors.Extract, xerrors.Extend, xerrors.extractAux]

/-- Helper: a chain with no `ExtendedError` link of type `t` yields no payload
from the chain walk. -/
theorem extractAux_eq_none_of_hasTy_false (t : xerrors.Ty) (e : xerrors.Err)
    (h : xerrors.hasTy t e = false) : xerrors.extractAux t e = none := by
  cases hx : xerrors.extractAux t e with
  | none => rfl
  | some d => simp [xerrors.hasTy, hx] at h

/-- Helper: any number of extension layers around `e` still matches `e` in the
identity chain walk. -/
theorem errorsIsAux_extendChain (ds : List xerrors.Val) (e : xerrors.Err) :
    xerrors.errorsIsAux (xerrors.extendChain ds e) e = true := by
  induction ds with
  | nil =>
    rw [xerrors.extendChain, List.foldr_nil, xerrors.errorsIsAux.eq_def]
    simp
  | cons d ds ih =>
    rw [xerrors.extendChain, List.foldr_cons, xerrors.errorsIsAux.eq_def]
    split
    · rfl
    · exact ih

/-- Helper: the in-place context mutation never changes the number of wrapper
layers in the chain. -/
theorem mutateCtx_depth (e : xerrors.Err) (attrs : List (String × String)) :
    (errcontext.mutateCtx e attrs).depth = e.depth := by
  induction e with
  | base i msg => rfl
  | ext d c ih =>
    cases d <;> simp [errcontext.mutateCtx, xerrors.Err.depth, ih]
  | foreign i pre c ih =>
    simp [errcontext.mutateCtx, xerrors.Err.depth, ih]

/-- C2: nearest wins on repeat — extending twice with the same payload type
and extracting returns the outermost payload with found = true, while the
inner wrapper link is still present one step further down the chain, where it
is what extraction recovers. -/
theorem extract_nearest_wins (e : xerrors.Err) (d1 d2 : xerrors.Val)
    (h : d1.ty = d2.ty) :
    xerrors.Extract d2.ty (xerrors.Extend d2 (xerrors.Extend d1 (some e))) = (d2, true) ∧
    xerrors.Extend d2 (xerrors.Extend d1 (some e)) =
      some (xerrors.Err.ext d2 (xerrors.Err.ext d1 e)) ∧
    xerrors.Extract d1.ty (xerrors.Err.unwrap (xerrors.Err.ext d2 (xerrors.Err.ext d1 e))) =
      (d1, true) := by
  refine ⟨?_, rfl, ?_⟩
  · simp [xerrors.Extract, xerrors.Extend, xerrors.extractAux]
  · simp [xerrors.Extract, xerrors.Err.unwrap, xerrors.extractAux]

theorem extract_nearest_wins_witness :
    xerrors.Val.ty (xerrors.Val.vNat 1) = xerrors.Val.ty (xerrors.Val.vNat 2) ∧
    (xerrors.Extract (xerrors.Val.vNat 2).ty
        (xerrors.Extend (xerrors.Val.vNat 2)
          (xerrors.Extend (xerrors.Val.vNat 1) (some (xerrors.Err.base 0 "e")))) =
        (xerrors.Val.vNat 2, true) ∧
      xerrors.Extend (xerrors.Val.vNat 2)
          (xerrors.Extend (xerrors.Val.vNat 1) (some (xerrors.Err.base 0 "e"))) =
        some (xerrors.Err.ext (xerrors.Val.vNat 2)
          (xerrors.Err.ext (xerrors.Val.vNat 1) (xerrors.Err.base 0 "e"))) ∧
      xerrors.Extract (xerrors.Val.vNat 1).ty
          (xerrors.Err.unwrap (xerrors.Err.ext (xerrors.Val.vNat 2)
            (xerrors.Err.ext (xerrors.Val.vNat 1) (xerrors.Err.base 0 "e")))) =
        (xerrors.Val.vNat 1, true)) :=
  ⟨rfl, extract_nearest_wins (xerrors.Err.base 0 "e")
    (xerrors.Val.vNat 1) (xerrors.Val.vNat 2) rfl⟩

/-- C3: the core never fails — extending a nil error yields nil; extracting
from a nil error, or from a chain with no `ExtendedError` link of the
requested type, yields the zero value and false. -/
theorem core_never_fails (t : xerrors.Ty) (d : xerrors.Val) (e : xerrors.Err)
    (h : xerrors.hasTy t e = false) :
    xerrors.Extend d none = none ∧
    xerrors.Extract t none = (t.zero, false) ∧
    xerrors.Extract t (some e) = (t.zero, false) := by
  refine ⟨rfl, rfl, ?_⟩
  simp [xerrors.Extract, extractAux_eq_none_of_hasTy_false t e h]

theorem core_never_fails_witness :
    xerrors.hasTy xerrors.Ty.tNat (xerrors.Err.base 0 "e") = false ∧
    (xerrors.Extend (xerrors.Val.vStr "x") none = none ∧
      xerrors.Extract xerrors.Ty.tNat none = (xerrors.Ty.zero xerrors.Ty.tNat, false) ∧
      xerrors.Extract xerrors.Ty.tNat (some (xerrors.Err.base 0 "e")) =
        (xerrors.Ty.zero xerrors.Ty.tNat, false)) :=
  ⟨by decide, core_never_fails xerrors.Ty.tNat (xerrors.Val.vStr "x")
    (xerrors.Err.base 0 "e") (by decide)⟩

/-- C4: interleaving with foreign wrapper kinds — wrapping an extended error
in any other single-cause wrapper that honors the unwrap-to-cause convention
(a foreign wrapper kind, or an `ExtendedError` at a non-matching type) does
not hide the payload: extraction skips over the non-matching link and still
recovers it. -/
theorem extract_skips_foreign (e1 : xerrors.Err) (d : xerrors.Val)
    (w : xerrors.WrapStep) (h : xerrors.wrapMatches d.ty w = false) :
    xerrors.Extract d.ty ((xerrors.Extend d (some e1)).map (xerrors.applyWrap w)) =
      (d, true) := by
  cases w with
  | wsForeign i pre =>
    simp [xerrors.Extract, xerrors.Extend, xerrors.applyWrap, xerrors.extractAux]
  | wsExt d2 =>
    simp [xerrors.wrapMatches] at h
    simp [xerrors.Extract, xerrors.Extend, xerrors.applyWrap, xerrors.extractAux, h]

theorem extract_skips_foreign_witness :
    xerrors.wrapMatches (xerrors.Val.vNat 5).ty (xerrors.WrapStep.wsForeign 0 "ctx: ") =
      false ∧
    xerrors.Extract (xerrors.Val.vNat 5).ty
        ((xerrors.Extend (xerrors.Val.vNat 5) (some (xerrors.Err.base 0 "e"))).map
          (xerrors.applyWrap (xerrors.WrapStep.wsForeign 0 "ctx: "))) =
      (xerrors.Val.vNat 5, true) :=
  ⟨by decide, extract_skips_foreign (xerrors.Err.base 0 "e") (xerrors.Val.vNat 5)
    (xerrors.WrapStep.wsForeign 0 "ctx: ") (by decide)⟩

/-- C5: chain preservation — identity-style chain matching that matches `e`
itself still succeeds against `Extend(d, e)`, and through any number of
extension layers, because the wrapper forwards its cause through the standard
unwrap link. -/
theorem chain_preservation (e : xerrors.Err) (d : xerrors.Val)
    (ds : List xerrors.Val) :
    xerrors.errorsIs (xerrors.Extend d (some e)) e = true ∧
    xerrors.errorsIsAux (xerrors.extendChain ds e) e = true :=
  ⟨errorsIsAux_extendChain [d] e, errorsIsAux_extendChain ds e⟩

/-- C6: type distinctness — extending with a value of nominal type `A` does
not satisfy extraction at the structurally identical but nominally distinct
type `B`: absent any `B` extension in the chain, the result is the zero value
of `B` and found = false. -/
theorem type_distinctness (e : xerrors.Err) (n : Int)
    (h : xerrors.hasTy xerrors.Ty.tB e = false) :
    xerrors.Extract xerrors.Ty.tB (xerrors.Extend (xerrors.Val.vA n) (some e)) =
      (xerrors.Ty.zero xerrors.Ty.tB, false) := by
  simp [xerrors.Extract, xerrors.Extend, xerrors.extractAux, xerrors.Val.ty,
    extractAux_eq_none_of_hasTy_false xerrors.Ty.tB e h]

theorem type_distinctness_witness :
    xerrors.hasTy xerrors.Ty.tB (xerrors.Err.base 0 "e") = false ∧
    xerrors.Extract xerrors.Ty.tB
        (xerrors.Extend (xerrors.Val.vA 7) (some (xerrors.Err.base 0 "e"))) =
      (xerrors.Ty.zero xerrors.Ty.tB, false) :=
  ⟨by decide, type_distinctness (xerrors.Err.base 0 "e") 7 (by decide)⟩

/-- C7: repeated context attachment is single-layer — on a non-nil error that
already carries a `Context` payload, `Add` mutates the existing map in place
(via `mutateCtx`, which preserves the chain depth, so no new wrapper layer is
added); in the concrete scenario, after adding `(one, one)` to the base error
and then `(two, two)`, the flattened context sorted by key is exactly those
two pairs, the immediate cause of the result carries no context, and
duplicate keys resolve last-write-wins. -/
theorem context_add_single_layer (e : xerrors.Err)
    (attrs : List (String × String))
    (hc : errcontext.Get (some e) ≠ none) (ha : attrs ≠ []) :
    (errcontext.Add (some e) attrs = some (errcontext.mutateCtx e attrs) ∧
      (errcontext.mutateCtx e attrs).depth = e.depth) ∧
    (errcontext.Get scenarioE2).map errcontext.Flatten =
      some [("one", "one"), ("two", "two")] ∧
    errcontext.Get (scenarioE2.bind xerrors.Err.unwrap) = none ∧
    (errcontext.Get scenarioDup).map errcontext.Flatten =
      some [("two", "three")] := by
  refine ⟨⟨?_, mutateCtx_depth e attrs⟩, by decide, by decide, by decide⟩
  cases attrs with
  | nil => exact absurd rfl ha
  | cons a as =>
    cases hg : errcontext.Get (some e) with
    | none => exact absurd hg hc
    | some m => simp [errcontext.Add, hg]

theorem context_add_single_layer_witness :
    errcontext.Get (some ctxWitErr) ≠ none ∧
    ([("k", "v")] : List (String × String)) ≠ [] ∧
    ((errcontext.Add (some ctxWitErr) [("k", "v")] =
        some (errcontext.mutateCtx ctxWitErr [("k", "v")]) ∧
      (errcontext.mutateCtx ctxWitErr [("k", "v")]).depth = ctxWitErr.depth) ∧
     (errcontext.Get scenarioE2).map errcontext.Flatten =
        some [("one", "one"), ("two", "two")] ∧
     errcontext.Get (scenarioE2.bind xerrors.Err.unwrap) = none ∧
     (errcontext.Get scenarioDup).map errcontext.Flatten =
        some [("two", "three")]) :=
  ⟨by decide, by decide,
    context_add_single_layer ctxWitErr [("k", "v")] (by decide) (by decide)⟩

/-- C8: severity escalation without downgrade — classifying a plain error as
Transient and reclassifying with Persistent under the only-if-more-severe
policy yields class Persistent; reclassifying that with Transient under the
same policy leaves it Persistent; and in general, under `WithOnlyMoreSevere`,
`WrapAs` wraps exactly when the candidate class is strictly greater than the
current class, and otherwise returns the error unchanged. -/
theorem severity_no_downgrade :
    errclass.GetClass classified2 = errclass.Persistent ∧
    errclass.GetClass classified3 = errclass.Persistent ∧
    ∀ (e : xerrors.Err) (c : xerrors.Class),
      errclass.WrapAs (some e) c [errclass.WithOnlyMoreSevere] =
        if errclass.GetClass (some e) < c
        then xerrors.Extend (xerrors.Val.vClass c) (some e)
        else some e := by
  refine ⟨by decide, by decide, fun e c => rfl⟩

/-- C9: message transparency — the error string of `Extend(d, e)` equals that
of `e`, and the rendered message is unchanged through any number of extension
layers. -/
theorem message_transparency (e : xerrors.Err) (d : xerrors.Val)
    (ds : List xerrors.Val) :
    (xerrors.Extend d (some e)).map xerrors.Err.error = some e.error ∧
    (xerrors.extendChain ds e).error = e.error := by
  refine ⟨rfl, ?_⟩
  induction ds with
  | nil => rfl
  | cons d2 ds2 ih =>
    rw [xerrors.extendChain, List.foldr_cons]
    show (xerrors.extendChain ds2 e).error = e.error
    exact ih

/-- C10: `GetClass` is total with a dedicated nil sentinel — `GetClass(nil)`
is `Nil` (value -1, below `Unknown`), and `GetClass` of any non-nil error
whose chain carries no attached `Class` is `Unknown` (the zero value); for
such inputs the result always lies in the five named classes. -/
theorem getclass_total (e : xerrors.Err)
    (h : xerrors.hasTy xerrors.Ty.tClass e = false) :
    errclass.GetClass none = errclass.Nil ∧
    errclass.Nil = -1 ∧
    errclass.Nil < errclass.Unknown ∧
    errclass.GetClass (some e) = errclass.Unknown ∧
    errclass.GetClass none ∈
      [errclass.Nil, errclass.Unknown, errclass.Transient,
        errclass.Persistent, errclass.Panic] ∧
    errclass.GetClass (some e) ∈
      [errclass.Nil, errclass.Unknown, errclass.Transient,
        errclass.Persistent, errclass.Panic] := by
  have hu : errclass.GetClass (some e) = errclass.Unknown := by
    simp [errclass.GetClass, xerrors.Extract,
      extractAux_eq_none_of_hasTy_false xerrors.Ty.tClass e h]
  refine ⟨rfl, rfl, by decide, hu, by decide, ?_⟩
  rw [hu]
  simp

theorem getclass_total_witness :
    xerrors.hasTy xerrors.Ty.tClass (xerrors.Err.base 0 "plain") = false ∧
    (errclass.GetClass none = errclass.Nil ∧
     errclass.Nil = -1 ∧
     errclass.Nil < errclass.Unknown ∧
     errclass.GetClass (some (xerrors.Err.base 0 "plain")) = errclass.Unknown ∧
     errclass.GetClass none ∈
       [errclass.Nil, errclass.Unknown, errclass.Transient,
         errclass.Persistent, errclass.Panic] ∧
     errclass.GetClass (some (xerrors.Err.base 0 "plain")) ∈
       [errclass.Nil, errclass.Unknown, errclass.Transient,
         errclass.Persistent, errclass.Panic]) :=
  ⟨by decide, getclass_total (xerrors.Err.base 0 "plain") (by decide)⟩
